import Mathlib

/-!
Verification of the process-simulator repository's mass-balance tank,
unit operations and ledger, shallowly embedded in Lean over `ℚ`.
Python dicts/Counters are embedded as association lists whose lookup
defaults absent keys to `0`, matching `collections.Counter` semantics.
-/

set_option maxHeartbeats 1000000

namespace ProcSim

/-- A liquid as in `test_mixing2.py`: a volume (liters) and a composition
mapping substance names to masses (grams); the dict is embedded as an
association list. -/
structure Liquid where
  volume : ℚ
  contents : List (String × ℚ)
deriving DecidableEq

/-- `Counter`-style lookup: the mass stored under a substance key, `0` when the
key is absent (the first matching entry wins, as for unique-key dicts). -/
def lookupMass : List (String × ℚ) → String → ℚ
  | [], _ => 0
  | (k, v) :: rest, s => if k = s then v else lookupMass rest s

/-- `inventory[substance] += mass` on an association list: update the first
entry with the given key, or append a fresh entry. -/
def addMass : List (String × ℚ) → String → ℚ → List (String × ℚ)
  | [], s, m => [(s, m)]
  | (k, v) :: rest, s, m =>
      if k = s then (k, v + m) :: rest else (k, v) :: addMass rest s m

/-- Total mass of a substance summed over all entries of a composition list
(for unique-key dicts this agrees with `lookupMass`). -/
def massOf : List (String × ℚ) → String → ℚ
  | [], _ => 0
  | (k, v) :: rest, s => (if k = s then v else 0) + massOf rest s

/-- The mass-balance tank of `test_mixing2.py` (`AdvancedTank`): a bounded
container level plus a per-substance inventory (`Counter`). -/
structure AdvancedTank where
  capacity : ℚ
  level : ℚ
  inventory : List (String × ℚ)
deriving DecidableEq

/-- `AdvancedTank.put_liquid`: the container accepts the liquid's volume
(simpy suspends until `level + amount ≤ capacity`, and `put` requires a
positive amount), then every substance mass is added to the inventory.
`none` models the call not completing. -/
def AdvancedTank.put_liquid (t : AdvancedTank) (liq : Liquid) : Option AdvancedTank :=
  if 0 < liq.volume ∧ t.level + liq.volume ≤ t.capacity then
    some { t with
            level := t.level + liq.volume,
            inventory := liq.contents.foldl (fun inv p => addMass inv p.1 p.2) t.inventory }
  else none

/-- `AdvancedTank.get_liquid`: the container releases `volume_needed`
(simpy suspends until `level ≥ amount`, and `get` requires a positive
amount); the level drops first, then `total_vol_before = level + volume_needed`
reconstructs the pre-get level, `fraction = volume_needed / total_vol_before`,
and every inventory entry loses `mass * fraction`, which is returned in a new
`Liquid`. -/
def AdvancedTank.get_liquid (t : AdvancedTank) (volume_needed : ℚ) :
    Option (Liquid × AdvancedTank) :=
  if 0 < volume_needed ∧ volume_needed ≤ t.level then
    let levelAfter := t.level - volume_needed
    let total_vol_before := levelAfter + volume_needed
    let fraction := volume_needed / total_vol_before
    let extracted := t.inventory.map (fun p => (p.1, p.2 * fraction))
    let newInv := t.inventory.map (fun p => (p.1, p.2 - p.2 * fraction))
    some (⟨volume_needed, extracted⟩, { t with level := levelAfter, inventory := newInv })
  else none

/-- `AdvancedTank.get_concentration`: `0` when the level is `0`, otherwise
`inventory[substance] / level` (with the `Counter` defaulting absent
substances to mass `0`). -/
def AdvancedTank.get_concentration (t : AdvancedTank) (s : String) : ℚ :=
  if t.level = 0 then 0 else lookupMass t.inventory s / t.level

/-- One operation of a put/get sequence on a mass-balance tank. -/
inductive TankOp where
  | putL : Liquid → TankOp
  | getL : ℚ → TankOp
deriving DecidableEq

/-- Run a sequence of put/get operations on a tank, collecting the liquids the
get operations extract; `none` when some operation cannot complete. -/
def runOps : AdvancedTank → List TankOp → Option (AdvancedTank × List Liquid)
  | t, [] => some (t, [])
  | t, TankOp.putL liq :: rest =>
      match t.put_liquid liq with
      | some t' => runOps t' rest
      | none => none
  | t, TankOp.getL v :: rest =>
      match t.get_liquid v with
      | some (liq, t') =>
          match runOps t' rest with
          | some (tf, outs) => some (tf, liq :: outs)
          | none => none
      | none => none

/-- Total mass of a substance over the liquids added by the put operations of a
sequence. -/
def putsMass : List TankOp → String → ℚ
  | [], _ => 0
  | TankOp.putL liq :: rest, s => massOf liq.contents s + putsMass rest s
  | TankOp.getL _ :: rest, s => putsMass rest s

/-- Total mass of a substance over a list of extracted liquids. -/
def extractedMass : List Liquid → String → ℚ
  | [], _ => 0
  | liq :: rest, s => lookupMass liq.contents s + extractedMass rest s

/-- A batch as in `engine.py`: the liquid material moving through the process. -/
structure Batch where
  id : String
  volume_liters : ℚ
  product_mass_grams : ℚ
  contaminants_grams : ℚ
  history : List String
deriving DecidableEq

/-- `Batch.log`: append a message to the batch history. -/
def Batch.log (b : Batch) (message : String) : Batch :=
  { b with history := b.history ++ [message] }

/-- The accumulator state of `engine.py`'s `MaterialsManager`: consumed
inventory, produced waste, total product. (The class's singleton construction
is modelled separately by `MMHeap`.) -/
structure MaterialsManager where
  inventory : List (String × ℚ)
  waste : List (String × ℚ)
  product_produced : ℚ
deriving DecidableEq

/-- `MaterialsManager.consume`: default the material to `0`, then add. -/
def MaterialsManager.consume (m : MaterialsManager) (material : String) (amount : ℚ) :
    MaterialsManager :=
  { m with inventory := addMass m.inventory material amount }

/-- `MaterialsManager.add_waste`: default the waste type to `0`, then add. -/
def MaterialsManager.add_waste (m : MaterialsManager) (waste_type : String) (amount : ℚ) :
    MaterialsManager :=
  { m with waste := addMass m.waste waste_type amount }

/-- `MaterialsManager.add_product`. -/
def MaterialsManager.add_product (m : MaterialsManager) (amount : ℚ) : MaterialsManager :=
  { m with product_produced := m.product_produced + amount }

/-- `MaterialsManager.reset`: empty inventory, empty waste, zero product. -/
def MaterialsManager.resetState : MaterialsManager := ⟨[], [], 0⟩

/-- The consumables loop shared by the unit operations:
`for material, amount in config.consumables.items(): materials.consume(...)`. -/
def MaterialsManager.consumeAll (m : MaterialsManager) (cs : List (String × ℚ)) :
    MaterialsManager :=
  cs.foldl (fun acc p => acc.consume p.1 p.2) m

/-- `FermentationConfig` of `schema.py`. `duration_hours` is optional in the
schema but `Fermentation.run` passes it to `timeout` unguarded, so a present
value is modelled. -/
structure FermentationConfig where
  name : String
  duration_hours : ℚ
  consumables : List (String × ℚ)
  contamination_risk : ℚ
  growth_rate : ℚ
deriving DecidableEq

/-- `ChromatographyConfig` of `schema.py`. -/
structure ChromatographyConfig where
  name : String
  consumables : List (String × ℚ)
  cycle_time_hours : ℚ
  cycles : ℕ
  yield_step : ℚ
deriving DecidableEq

/-- An acquire or release of a resource pool slot. -/
inductive ResEvent where
  | acquire
  | release
deriving DecidableEq

/-- Apply a sequence of resource pool events to an `in_use` count. -/
def applyResEvents : ℕ → List ResEvent → ℕ
  | n, [] => n
  | n, ResEvent.acquire :: rest => applyResEvents (n + 1) rest
  | n, ResEvent.release :: rest => applyResEvents (n - 1) rest

/-- The outcome of one unit operation execution: the updated batch and ledger,
the virtual time that elapsed inside the step, the resource pool events the
step performed in order, and whether the failure branch was taken. -/
structure UnitOpResult where
  batch : Batch
  materials : MaterialsManager
  elapsed : ℚ
  resEvents : List ResEvent
  failed : Bool
deriving DecidableEq

/-- `Fermentation.run` of `units.py`, one execution given the uniform sample
`r` that `random.random()` returns at the resume: the bioreactor slot is
acquired (a `with` block), consumables are debited, the process suspends for
`duration_hours`, then `r < contamination_risk` selects the failure branch —
the ledger's waste gains a "Contaminated Batch" entry equal to the pre-zero
batch volume, the batch volume and product mass are zeroed, 1000 g of
contaminant is added, and the generator returns early (the `with` block still
releases the slot). Otherwise growth adds `volume_liters * growth_rate` to the
product mass. -/
def Fermentation.run (cfg : FermentationConfig) (batch : Batch)
    (materials : MaterialsManager) (r : ℚ) : UnitOpResult :=
  let mat1 := materials.consumeAll cfg.consumables
  if r < cfg.contamination_risk then
    { batch :=
        Batch.log
          { batch with
              volume_liters := 0,
              product_mass_grams := 0,
              contaminants_grams := batch.contaminants_grams + 1000 }
          ("Failed at " ++ cfg.name ++ " due to contamination"),
      materials := mat1.add_waste "Contaminated Batch" batch.volume_liters,
      elapsed := cfg.duration_hours,
      resEvents := [ResEvent.acquire, ResEvent.release],
      failed := true }
  else
    let produced := batch.volume_liters * cfg.growth_rate
    { batch :=
        Batch.log
          { batch with product_mass_grams := batch.product_mass_grams + produced }
          ("Completed " ++ cfg.name),
      materials := mat1,
      elapsed := cfg.duration_hours,
      resEvents := [ResEvent.acquire, ResEvent.release],
      failed := false }

/-- The chromatography cycle loop, `for i in range(total_cycles): yield
env.timeout(cycle_time)`: the total virtual time the sequential timeouts
take. -/
def runCycles : ℕ → ℚ → ℚ
  | 0, _ => 0
  | n + 1, ct => ct + runCycles n ct

/-- `Chromatography.run` of `units.py`, one execution: the skid slot is
acquired (a `with` block), `cycles` sequential timeouts of `cycle_time_hours`
elapse, consumables are debited once for the whole step, then
`final_mass = product_mass * yield_step` is applied and the loss
`original - final` is recorded as "Purification Waste". -/
def Chromatography.run (cfg : ChromatographyConfig) (batch : Batch)
    (materials : MaterialsManager) : UnitOpResult :=
  let elapsed := runCycles cfg.cycles cfg.cycle_time_hours
  let mat1 := materials.consumeAll cfg.consumables
  let original_mass := batch.product_mass_grams
  let final_mass := original_mass * cfg.yield_step
  let loss := original_mass - final_mass
  { batch :=
      Batch.log { batch with product_mass_grams := final_mass }
        ("Completed " ++ cfg.name),
    materials := mat1.add_waste "Purification Waste" loss,
    elapsed := elapsed,
    resEvents := [ResEvent.acquire, ResEvent.release],
    failed := false }

/-- `self.status` of the rate-based tank in `first_classy_sim.py`. -/
inductive TankStatus where
  | Idle
  | Filling
  | Emptying
deriving DecidableEq

/-- The rate-based tank of `first_classy_sim.py`: a fixed step `dt`, a bounded
container, and the observable status. -/
structure SimTank where
  dt : ℚ
  capacity : ℚ
  level : ℚ
  status : TankStatus
deriving DecidableEq

/-- The loop of `Tank.fill_to_level`: while `level < target_level`, suspend for
`dt`, then put `min(rate * dt, space_available)` into the container, where
`space_available = capacity - level` is the gap to the tank CAPACITY (not to
the target). Fuel bounds the iterations, since the Python `while` loop need
not terminate; the result is the trace of post-put states and the final
state. -/
def fillLoop (target_level rate : ℚ) (t : SimTank) : ℕ → Option (List SimTank × SimTank)
  | 0 => if t.level < target_level then none else some ([], t)
  | fuel + 1 =>
      if t.level < target_level then
        let space_available := t.capacity - t.level
        let amount := min (rate * t.dt) space_available
        let t' := { t with level := t.level + amount }
        match fillLoop target_level rate t' fuel with
        | some (tr, tf) => some (t' :: tr, tf)
        | none => none
      else some ([], t)

/-- The loop of `Tank.empty_to_level`: while `level > target_level`, suspend
for `dt`, then get `min(rate * dt, remaining_volume)` from the container,
where `remaining_volume = level - target_level` is the gap to the target. -/
def emptyLoop (target_level rate : ℚ) (t : SimTank) : ℕ → Option (List SimTank × SimTank)
  | 0 => if target_level < t.level then none else some ([], t)
  | fuel + 1 =>
      if target_level < t.level then
        let remaining_volume := t.level - target_level
        let amount := min (rate * t.dt) remaining_volume
        let t' := { t with level := t.level - amount }
        match emptyLoop target_level rate t' fuel with
        | some (tr, tf) => some (t' :: tr, tf)
        | none => none
      else some ([], t)

/-- `Tank.fill_to_level`: set status to `Filling`, run the fill loop, set
status back to `Idle`; the returned trace holds the states observable while
the operation runs (the start state and each post-put state). -/
def SimTank.fill_to_level (t : SimTank) (target_level rate : ℚ) (fuel : ℕ) :
    Option (List SimTank × SimTank) :=
  let start := { t with status := TankStatus.Filling }
  match fillLoop target_level rate start fuel with
  | some (tr, tf) => some (start :: tr, { tf with status := TankStatus.Idle })
  | none => none

/-- `Tank.empty_to_level`: set status to `Emptying`, run the empty loop, set
status back to `Idle`. -/
def SimTank.empty_to_level (t : SimTank) (target_level rate : ℚ) (fuel : ℕ) :
    Option (List SimTank × SimTank) :=
  let start := { t with status := TankStatus.Emptying }
  match emptyLoop target_level rate start fuel with
  | some (tr, tf) => some (start :: tr, { tf with status := TankStatus.Idle })
  | none => none

/-- The class-level `_instance` cell of `MaterialsManager`'s `__new__`-based
construction in `engine.py`, together with an object store: references index
the allocated ledger objects of the running process. -/
structure MMHeap where
  store : ℕ → Option MaterialsManager
  nextRef : ℕ
  instanceRef : Option ℕ

/-- `MaterialsManager()` (`__new__`): when `_instance is None`, allocate a
fresh object, reset it and record it in `_instance`; otherwise return the
recorded instance unchanged. -/
def mmConstruct (h : MMHeap) : ℕ × MMHeap :=
  match h.instanceRef with
  | some r => (r, h)
  | none =>
      (h.nextRef,
        { store := fun k =>
            if k = h.nextRef then some MaterialsManager.resetState else h.store k,
          nextRef := h.nextRef + 1,
          instanceRef := some h.nextRef })

/-- Overwrite the object a reference points to. -/
def heapSet (h : MMHeap) (r : ℕ) (m : MaterialsManager) : MMHeap :=
  { h with store := fun k => if k = r then some m else h.store k }

/-- `SimulationEngine.__init__` of `engine.py`, restricted to its ledger
effect: `self.materials_manager = MaterialsManager()` followed by
`self.materials_manager.reset()`. Returns the engine's ledger reference and
the updated heap. -/
def SimulationEngine.init (h : MMHeap) : ℕ × MMHeap :=
  let rh := mmConstruct h
  (rh.1, heapSet rh.2 rh.1 MaterialsManager.resetState)

/-- One `Fermentation.run` drawing its sample from the process's global random
stream, as `random.random()` does: the run consumes the head of the stream and
leaves the tail for whatever draws next in the same process. The source never
seeds or re-seeds this stream. -/
def Fermentation.runStream (cfg : FermentationConfig) (batch : Batch)
    (materials : MaterialsManager) (rs : List ℚ) : UnitOpResult × List ℚ :=
  (Fermentation.run cfg batch materials (rs.headD 0), rs.tail)

/-! ### Lookup lemmas for the inventory operations -/

theorem lookupMass_addMass (l : List (String × ℚ)) (k : String) (m : ℚ) (s : String) :
    lookupMass (addMass l k m) s = lookupMass l s + (if k = s then m else 0) := by
  induction l with
  | nil => by_cases h : k = s <;> simp [addMass, lookupMass, h]
  | cons p rest ih =>
      obtain ⟨a, v⟩ := p
      by_cases hak : a = k
      · subst hak
        by_cases has : a = s
        · subst has
          simp [addMass, lookupMass]
        · simp [addMass, lookupMass, has]
      · by_cases has : a = s
        · subst has
          have : ¬ k = a := fun h => hak h.symm
          simp [addMass, lookupMass, hak, this]
        · simp [addMass, lookupMass, hak, has, ih]

theorem lookupMass_foldl_addMass (contents : List (String × ℚ))
    (inv : List (String × ℚ)) (s : String) :
    lookupMass (contents.foldl (fun acc p => addMass acc p.1 p.2) inv) s
      = lookupMass inv s + massOf contents s := by
  induction contents generalizing inv with
  | nil => simp [massOf]
  | cons p rest ih =>
      obtain ⟨k, m⟩ := p
      simp only [List.foldl_cons, massOf]
      rw [ih, lookupMass_addMass]
      ring

theorem lookupMass_map_scale (l : List (String × ℚ)) (c : ℚ) (s : String) :
    lookupMass (l.map (fun p => (p.1, p.2 * c))) s = lookupMass l s * c := by
  induction l with
  | nil => simp [lookupMass]
  | cons p rest ih =>
      obtain ⟨k, v⟩ := p
      by_cases h : k = s <;> simp [lookupMass, h, ih]

theorem lookupMass_map_keep (l : List (String × ℚ)) (c : ℚ) (s : String) :
    lookupMass (l.map (fun p => (p.1, p.2 - p.2 * c))) s
      = lookupMass l s - lookupMass l s * c := by
  induction l with
  | nil => simp [lookupMass]
  | cons p rest ih =>
      obtain ⟨k, v⟩ := p
      by_cases h : k = s <;> simp [lookupMass, h, ih]

theorem lookupMass_eq_zero_of_absent {l : List (String × ℚ)} {s : String}
    (h : ∀ p ∈ l, p.1 ≠ s) : lookupMass l s = 0 := by
  induction l with
  | nil => rfl
  | cons p rest ih =>
      obtain ⟨k, v⟩ := p
      have hk : k ≠ s := h (k, v) (List.mem_cons_self _ _)
      simp only [lookupMass, if_neg hk]
      exact ih fun q hq => h q (List.mem_cons_of_mem _ hq)

theorem put_liquid_lookup {t t' : AdvancedTank} {liq : Liquid}
    (h : t.put_liquid liq = some t') (s : String) :
    lookupMass t'.inventory s = lookupMass t.inventory s + massOf liq.contents s := by
  rw [AdvancedTank.put_liquid] at h
  by_cases hc : 0 < liq.volume ∧ t.level + liq.volume ≤ t.capacity
  · rw [if_pos hc] at h
    simp only [Option.some.injEq] at h
    subst h
    exact lookupMass_foldl_addMass liq.contents t.inventory s
  · rw [if_neg hc] at h
    cases h

theorem get_liquid_lookup {t t' : AdvancedTank} {liq : Liquid} {v : ℚ}
    (h : t.get_liquid v = some (liq, t')) (s : String) :
    lookupMass liq.contents s + lookupMass t'.inventory s = lookupMass t.inventory s := by
  rw [AdvancedTank.get_liquid] at h
  by_cases hc : 0 < v ∧ v ≤ t.level
  · rw [if_pos hc] at h
    simp only [Option.some.injEq, Prod.mk.injEq] at h
    obtain ⟨hliq, ht'⟩ := h
    subst hliq
    subst ht'
    simp only [lookupMass_map_scale, lookupMass_map_keep]
    ring
  · rw [if_neg hc] at h
    cases h

theorem consumeAll_waste (m : MaterialsManager) (cs : List (String × ℚ)) :
    (m.consumeAll cs).waste = m.waste := by
  induction cs generalizing m with
  | nil => rfl
  | cons p rest ih =>
      simp only [MaterialsManager.consumeAll, List.foldl_cons] at *
      exact ih (m.consume p.1 p.2)

theorem runCycles_three (ct : ℚ) : runCycles 3 ct = ct + (ct + (ct + 0)) := rfl

theorem fillLoop_spec (target_level rate : ℚ) (fuel : ℕ) :
    ∀ (t : SimTank) (tr : List SimTank) (tf : SimTank),
      fillLoop target_level rate t fuel = some (tr, tf) →
      target_level ≤ tf.level ∧ tf.capacity = t.capacity ∧ tf.status = t.status ∧
      (t.level ≤ t.capacity → tf.level ≤ t.capacity) ∧
      (∀ u ∈ tr, u.status = t.status) := by
  induction fuel with
  | zero =>
      intro t tr tf h
      rw [fillLoop] at h
      by_cases hc : t.level < target_level
      · rw [if_pos hc] at h
        exact Option.noConfusion h
      · rw [if_neg hc] at h
        simp only [Option.some.injEq, Prod.mk.injEq] at h
        obtain ⟨h1, h2⟩ := h
        subst h1
        subst h2
        exact ⟨not_lt.mp hc, rfl, rfl, fun hl => hl, by simp⟩
  | succ fuel ih =>
      intro t tr tf h
      simp only [fillLoop] at h
      by_cases hc : t.level < target_level
      · rw [if_pos hc] at h
        cases hrec : fillLoop target_level rate
            { t with level := t.level + min (rate * t.dt) (t.capacity - t.level) } fuel with
        | none =>
            rw [hrec] at h
            exact Option.noConfusion h
        | some p =>
            obtain ⟨tr1, tf1⟩ := p
            rw [hrec] at h
            simp only [Option.some.injEq, Prod.mk.injEq] at h
            obtain ⟨h1, h2⟩ := h
            subst h1
            subst h2
            obtain ⟨ha, hb, hs, hcap, htr⟩ := ih _ _ _ hrec
            refine ⟨ha, hb, hs, ?_, ?_⟩
            · intro hl
              apply hcap
              have hmin : min (rate * t.dt) (t.capacity - t.level)
                  ≤ t.capacity - t.level := min_le_right _ _
              simp only []
              linarith
            · intro u hu
              rcases List.mem_cons.mp hu with hu | hu
              · subst hu; rfl
              · exact htr u hu
      · rw [if_neg hc] at h
        simp only [Option.some.injEq, Prod.mk.injEq] at h
        obtain ⟨h1, h2⟩ := h
        subst h1
        subst h2
        exact ⟨not_lt.mp hc, rfl, rfl, fun hl => hl, by simp⟩

theorem emptyLoop_spec (target_level rate : ℚ) (fuel : ℕ) :
    ∀ (t : SimTank) (tr : List SimTank) (tf : SimTank),
      emptyLoop target_level rate t fuel = some (tr, tf) →
      tf.level ≤ target_level ∧ tf.capacity = t.capacity ∧ tf.status = t.status ∧
      (target_level ≤ t.level → target_level ≤ tf.level) ∧
      (∀ u ∈ tr, u.status = t.status) := by
  induction fuel with
  | zero =>
      intro t tr tf h
      rw [emptyLoop] at h
      by_cases hc : target_level < t.level
      · rw [if_pos hc] at h
        exact Option.noConfusion h
      · rw [if_neg hc] at h
        simp only [Option.some.injEq, Prod.mk.injEq] at h
        obtain ⟨h1, h2⟩ := h
        subst h1
        subst h2
        exact ⟨not_lt.mp hc, rfl, rfl, fun hl => hl, by simp⟩
  | succ fuel ih =>
      intro t tr tf h
      simp only [emptyLoop] at h
      by_cases hc : target_level < t.level
      · rw [if_pos hc] at h
        cases hrec : emptyLoop target_level rate
            { t with level := t.level - min (rate * t.dt) (t.level - target_level) } fuel with
        | none =>
            rw [hrec] at h
            exact Option.noConfusion h
        | some p =>
            obtain ⟨tr1, tf1⟩ := p
            rw [hrec] at h
            simp only [Option.some.injEq, Prod.mk.injEq] at h
            obtain ⟨h1, h2⟩ := h
            subst h1
            subst h2
            obtain ⟨ha, hb, hs, hlow, htr⟩ := ih _ _ _ hrec
            refine ⟨ha, hb, hs, ?_, ?_⟩
            · intro _
              apply hlow
              have hmin : min (rate * t.dt) (t.level - target_level)
                  ≤ t.level - target_level := min_le_right _ _
              simp only []
              linarith
            · intro u hu
              rcases List.mem_cons.mp hu with hu | hu
              · subst hu; rfl
              · exact htr u hu
      · rw [if_neg hc] at h
        simp only [Option.some.injEq, Prod.mk.injEq] at h
        obtain ⟨h1, h2⟩ := h
        subst h1
        subst h2
        exact ⟨not_lt.mp hc, rfl, rfl, fun hl => hl, by simp⟩

end ProcSim

/-- C1. Proportional extraction: from a tank at level `V > 0` holding `M` grams
of a substance, `get_liquid v` with `0 < v ≤ V` returns a liquid of volume `v`
carrying exactly `(v / V) * M` grams of that substance, and the tank's
inventory is debited by exactly that mass. -/
theorem C1_proportional_extraction (t : ProcSim.AdvancedTank) (s : String) (v : ℚ)
    (hv : 0 < v) (hle : v ≤ t.level) :
    ∃ liq t', t.get_liquid v = some (liq, t') ∧
      liq.volume = v ∧
      ProcSim.lookupMass liq.contents s = (v / t.level) * ProcSim.lookupMass t.inventory s ∧
      ProcSim.lookupMass t'.inventory s
        = ProcSim.lookupMass t.inventory s - (v / t.level) * ProcSim.lookupMass t.inventory s := by
  have hcond : 0 < v ∧ v ≤ t.level := ⟨hv, hle⟩
  have hV : t.level - v + v = t.level := by ring
  refine ⟨⟨v, t.inventory.map (fun p => (p.1, p.2 * (v / (t.level - v + v))))⟩,
      ⟨t.capacity, t.level - v,
        t.inventory.map (fun p => (p.1, p.2 - p.2 * (v / (t.level - v + v))))⟩,
      ?_, rfl, ?_, ?_⟩
  · simp [ProcSim.AdvancedTank.get_liquid, hcond]
  · rw [ProcSim.lookupMass_map_scale, hV, mul_comm]
  · rw [ProcSim.lookupMass_map_keep, hV, mul_comm]

/-- Witness for C1 at a concrete tank: 20 L holding 1000 g of glucose,
extracting 2 L yields 100 g and leaves 900 g. -/
theorem C1_proportional_extraction_witness :
    ∃ liq t',
      ProcSim.AdvancedTank.get_liquid ⟨100, 20, [("Glucose", 1000)]⟩ 2 = some (liq, t') ∧
      liq.volume = 2 ∧
      ProcSim.lookupMass liq.contents "Glucose"
        = (2 / (20 : ℚ)) * ProcSim.lookupMass [("Glucose", (1000 : ℚ))] "Glucose" ∧
      ProcSim.lookupMass t'.inventory "Glucose"
        = ProcSim.lookupMass [("Glucose", (1000 : ℚ))] "Glucose"
          - (2 / (20 : ℚ)) * ProcSim.lookupMass [("Glucose", (1000 : ℚ))] "Glucose" :=
  C1_proportional_extraction ⟨100, 20, [("Glucose", 1000)]⟩ "Glucose" 2
    (by norm_num) (by norm_num)

/-- C2. Mass conservation: over any sequence of put/get operations that all
complete, for every substance, the mass left in the tank's inventory plus the
total mass carried away in the returned liquids equals the initial inventory
mass plus the total mass added by the put operations (exactly, in `ℚ`); the
single-get case is the one-element sequence. -/
theorem C2_mass_conservation (t : ProcSim.AdvancedTank) (ops : List ProcSim.TankOp)
    (tf : ProcSim.AdvancedTank) (outs : List ProcSim.Liquid)
    (h : ProcSim.runOps t ops = some (tf, outs)) (s : String) :
    ProcSim.lookupMass tf.inventory s + ProcSim.extractedMass outs s
      = ProcSim.lookupMass t.inventory s + ProcSim.putsMass ops s := by
  induction ops generalizing t outs with
  | nil =>
      simp only [ProcSim.runOps, Option.some.injEq, Prod.mk.injEq] at h
      obtain ⟨h1, h2⟩ := h
      subst h1
      subst h2
      simp [ProcSim.extractedMass, ProcSim.putsMass]
  | cons op rest ih =>
      cases op with
      | putL liq =>
          cases hput : t.put_liquid liq with
          | none =>
              simp only [ProcSim.runOps, hput] at h
              exact Option.noConfusion h
          | some t' =>
              simp only [ProcSim.runOps, hput] at h
              have hrest := ih t' outs h
              have hstep := ProcSim.put_liquid_lookup hput s
              simp only [ProcSim.putsMass]
              rw [hrest, hstep]
              ring
      | getL v =>
          cases hget : t.get_liquid v with
          | none =>
              simp only [ProcSim.runOps, hget] at h
              exact Option.noConfusion h
          | some pr =>
              obtain ⟨liq, t'⟩ := pr
              cases hrun : ProcSim.runOps t' rest with
              | none =>
                  simp only [ProcSim.runOps, hget, hrun] at h
                  exact Option.noConfusion h
              | some pr2 =>
                  obtain ⟨tf2, outs2⟩ := pr2
                  simp only [ProcSim.runOps, hget, hrun, Option.some.injEq,
                    Prod.mk.injEq] at h
                  obtain ⟨h1, h2⟩ := h
                  subst h1
                  subst h2
                  have hrest := ih t' outs2 hrun
                  have hstep := ProcSim.get_liquid_lookup hget s
                  simp only [ProcSim.extractedMass, ProcSim.putsMass]
                  linarith [hrest, hstep]

/-- Witness for C2: the lab sequence of `test_mixing2.py` — put 10 L of
concentrate, put 10 L of water, extract 2 L — conserves glucose mass. -/
theorem C2_mass_conservation_witness :
    ProcSim.lookupMass [("Water", (17100 : ℚ)), ("Glucose", 900), ("Salt", 90)] "Glucose"
      + ProcSim.extractedMass
          [⟨2, [("Water", 1900), ("Glucose", 100), ("Salt", 10)]⟩] "Glucose"
      = ProcSim.lookupMass ([] : List (String × ℚ)) "Glucose"
        + ProcSim.putsMass
            [ProcSim.TankOp.putL ⟨10, [("Water", 9000), ("Glucose", 1000), ("Salt", 100)]⟩,
             ProcSim.TankOp.putL ⟨10, [("Water", 10000)]⟩,
             ProcSim.TankOp.getL 2] "Glucose" :=
  C2_mass_conservation ⟨100, 0, []⟩
    [ProcSim.TankOp.putL ⟨10, [("Water", 9000), ("Glucose", 1000), ("Salt", 100)]⟩,
     ProcSim.TankOp.putL ⟨10, [("Water", 10000)]⟩,
     ProcSim.TankOp.getL 2]
    ⟨100, 18, [("Water", 17100), ("Glucose", 900), ("Salt", 90)]⟩
    [⟨2, [("Water", 1900), ("Glucose", 100), ("Salt", 10)]⟩]
    (by with_unfolding_all rfl) "Glucose"

/-- C10. Unknown-substance concentration: for every tank state, also with a
positive level, `get_concentration` returns `0` for a substance absent from
the inventory (the `Counter` defaults it to mass `0`). -/
theorem C10_unknown_substance_concentration (t : ProcSim.AdvancedTank) (s : String)
    (h : ∀ p ∈ t.inventory, p.1 ≠ s) :
    t.get_concentration s = 0 := by
  rw [ProcSim.AdvancedTank.get_concentration]
  by_cases hl : t.level = 0
  · rw [if_pos hl]
  · rw [if_neg hl, ProcSim.lookupMass_eq_zero_of_absent h, zero_div]

/-- Witness for C10: a tank at level 5 holding only glucose reports a zero
concentration of salt. -/
theorem C10_unknown_substance_concentration_witness :
    ProcSim.AdvancedTank.get_concentration ⟨100, 5, [("Glucose", 100)]⟩ "Salt" = 0 :=
  C10_unknown_substance_concentration ⟨100, 5, [("Glucose", 100)]⟩ "Salt" (by decide)

/-- C3. Contamination failure: with `contamination_risk = 1` every uniform
sample `r` in `[0,1)` satisfies `r < contamination_risk`, so `Fermentation.run`
takes the failure branch after the configured duration — batch volume and
product mass become 0, 1000 g of contaminant is added, the ledger's waste
gains a "Contaminated Batch" entry equal to the pre-failure batch volume
(recorded before zeroing), and growth is not applied. -/
theorem C3_contamination_failure (cfg : ProcSim.FermentationConfig) (b : ProcSim.Batch)
    (m : ProcSim.MaterialsManager) (r : ℚ)
    (hrisk : cfg.contamination_risk = 1) (_hr0 : 0 ≤ r) (hr1 : r < 1) :
    (ProcSim.Fermentation.run cfg b m r).failed = true ∧
    (ProcSim.Fermentation.run cfg b m r).elapsed = cfg.duration_hours ∧
    (ProcSim.Fermentation.run cfg b m r).batch.volume_liters = 0 ∧
    (ProcSim.Fermentation.run cfg b m r).batch.product_mass_grams = 0 ∧
    (ProcSim.Fermentation.run cfg b m r).batch.contaminants_grams
      = b.contaminants_grams + 1000 ∧
    ProcSim.lookupMass (ProcSim.Fermentation.run cfg b m r).materials.waste
        "Contaminated Batch"
      = ProcSim.lookupMass m.waste "Contaminated Batch" + b.volume_liters := by
  have hcond : r < cfg.contamination_risk := by rw [hrisk]; exact hr1
  simp only [ProcSim.Fermentation.run, if_pos hcond, ProcSim.Batch.log,
    ProcSim.MaterialsManager.add_waste]
  refine ⟨trivial, trivial, trivial, trivial, trivial, ?_⟩
  rw [ProcSim.lookupMass_addMass, ProcSim.consumeAll_waste]
  simp

/-- Witness for C3 at a concrete fermentation: risk 1, duration 24 h, a 500 L
batch, sample `r = 0`. -/
theorem C3_contamination_failure_witness :
    (ProcSim.FermentationConfig.contamination_risk ⟨"Ferm", 24, [], 1, 2⟩ = 1) ∧
    ((0 : ℚ) ≤ 0) ∧ ((0 : ℚ) < 1) ∧
    ((ProcSim.Fermentation.run ⟨"Ferm", 24, [], 1, 2⟩ ⟨"B1", 500, 0, 0, []⟩ ⟨[], [], 0⟩
        0).failed = true ∧
     (ProcSim.Fermentation.run ⟨"Ferm", 24, [], 1, 2⟩ ⟨"B1", 500, 0, 0, []⟩ ⟨[], [], 0⟩
        0).elapsed = ProcSim.FermentationConfig.duration_hours ⟨"Ferm", 24, [], 1, 2⟩ ∧
     (ProcSim.Fermentation.run ⟨"Ferm", 24, [], 1, 2⟩ ⟨"B1", 500, 0, 0, []⟩ ⟨[], [], 0⟩
        0).batch.volume_liters = 0 ∧
     (ProcSim.Fermentation.run ⟨"Ferm", 24, [], 1, 2⟩ ⟨"B1", 500, 0, 0, []⟩ ⟨[], [], 0⟩
        0).batch.product_mass_grams = 0 ∧
     (ProcSim.Fermentation.run ⟨"Ferm", 24, [], 1, 2⟩ ⟨"B1", 500, 0, 0, []⟩ ⟨[], [], 0⟩
        0).batch.contaminants_grams = (0 : ℚ) + 1000 ∧
     ProcSim.lookupMass
        (ProcSim.Fermentation.run ⟨"Ferm", 24, [], 1, 2⟩ ⟨"B1", 500, 0, 0, []⟩ ⟨[], [], 0⟩
          0).materials.waste "Contaminated Batch"
      = ProcSim.lookupMass ([] : List (String × ℚ)) "Contaminated Batch" + 500) :=
  ⟨rfl, by decide, by decide,
    C3_contamination_failure ⟨"Ferm", 24, [], 1, 2⟩ ⟨"B1", 500, 0, 0, []⟩ ⟨[], [], 0⟩ 0
      rfl (by decide) (by decide)⟩

/-- C4. Chromatography scenario: with `cycles = 3`, `cycle_time_hours = 2`,
`yield_step = 9/10` on a batch with `product_mass = 1000`, the step's virtual
time advances by exactly 6 hours (three sequential 2-hour timeouts), the final
product mass is 900, and the ledger's "Purification Waste" gains exactly 100. -/
theorem C4_chromatography_scenario (cfg : ProcSim.ChromatographyConfig)
    (b : ProcSim.Batch) (m : ProcSim.MaterialsManager)
    (hcy : cfg.cycles = 3) (hct : cfg.cycle_time_hours = 2)
    (hys : cfg.yield_step = 9 / 10) (hpm : b.product_mass_grams = 1000) :
    (ProcSim.Chromatography.run cfg b m).elapsed = 6 ∧
    (ProcSim.Chromatography.run cfg b m).batch.product_mass_grams = 900 ∧
    ProcSim.lookupMass (ProcSim.Chromatography.run cfg b m).materials.waste
        "Purification Waste"
      = ProcSim.lookupMass m.waste "Purification Waste" + 100 := by
  simp only [ProcSim.Chromatography.run, ProcSim.Batch.log,
    ProcSim.MaterialsManager.add_waste, hcy, hct, hys, hpm]
  refine ⟨?_, ?_, ?_⟩
  · rw [ProcSim.runCycles_three]; norm_num
  · norm_num
  · rw [ProcSim.lookupMass_addMass, ProcSim.consumeAll_waste]
    norm_num

/-- Witness for C4 at a concrete chromatography step and batch. -/
theorem C4_chromatography_scenario_witness :
    (ProcSim.Chromatography.run ⟨"Chroma", [], 2, 3, 9 / 10⟩
        ⟨"B1", 500, 1000, 0, []⟩ ⟨[], [], 0⟩).elapsed = 6 ∧
    (ProcSim.Chromatography.run ⟨"Chroma", [], 2, 3, 9 / 10⟩
        ⟨"B1", 500, 1000, 0, []⟩ ⟨[], [], 0⟩).batch.product_mass_grams = 900 ∧
    ProcSim.lookupMass
        (ProcSim.Chromatography.run ⟨"Chroma", [], 2, 3, 9 / 10⟩
          ⟨"B1", 500, 1000, 0, []⟩ ⟨[], [], 0⟩).materials.waste "Purification Waste"
      = ProcSim.lookupMass ([] : List (String × ℚ)) "Purification Waste" + 100 :=
  C4_chromatography_scenario ⟨"Chroma", [], 2, 3, 9 / 10⟩ ⟨"B1", 500, 1000, 0, []⟩
    ⟨[], [], 0⟩ rfl rfl rfl rfl

/-- C7. No leaked capacity: both `Fermentation.run` (including the
contamination early return) and `Chromatography.run` acquire and then release
their resource slot on every execution, so the pool's `in_use` count after the
operation equals its value before the acquisition. -/
theorem C7_no_leaked_capacity (cfg : ProcSim.FermentationConfig) (b : ProcSim.Batch)
    (m : ProcSim.MaterialsManager) (r : ℚ) (cfg' : ProcSim.ChromatographyConfig)
    (b' : ProcSim.Batch) (m' : ProcSim.MaterialsManager) (n : ℕ) :
    ProcSim.applyResEvents n (ProcSim.Fermentation.run cfg b m r).resEvents = n ∧
    ProcSim.applyResEvents n (ProcSim.Chromatography.run cfg' b' m').resEvents = n := by
  constructor
  · by_cases h : r < cfg.contamination_risk <;>
      simp [ProcSim.Fermentation.run, h, ProcSim.applyResEvents]
  · simp [ProcSim.Chromatography.run, ProcSim.applyResEvents]

/-- C9. Zero-risk fermentation is safe: with `contamination_risk = 0` every
sample `r ≥ 0` fails the comparison `r < 0`, so the failure branch is
unreachable — the batch volume is unchanged and the product mass grows by
exactly `volume_liters * growth_rate`. -/
theorem C9_zero_risk_safe (cfg : ProcSim.FermentationConfig) (b : ProcSim.Batch)
    (m : ProcSim.MaterialsManager) (r : ℚ)
    (hrisk : cfg.contamination_risk = 0) (hr0 : 0 ≤ r) :
    (ProcSim.Fermentation.run cfg b m r).failed = false ∧
    (ProcSim.Fermentation.run cfg b m r).batch.volume_liters = b.volume_liters ∧
    (ProcSim.Fermentation.run cfg b m r).batch.product_mass_grams
      = b.product_mass_grams + b.volume_liters * cfg.growth_rate := by
  have hcond : ¬ r < cfg.contamination_risk := by rw [hrisk]; exact not_lt.mpr hr0
  simp only [ProcSim.Fermentation.run, if_neg hcond, ProcSim.Batch.log]
  exact ⟨trivial, trivial, trivial⟩

/-- Witness for C9: a zero-risk fermentation of a 500 L batch at growth rate 2
with sample `r = 0` completes with unchanged volume and 1000 g of product. -/
theorem C9_zero_risk_safe_witness :
    (ProcSim.FermentationConfig.contamination_risk ⟨"Ferm", 24, [], 0, 2⟩ = 0) ∧
    ((0 : ℚ) ≤ 0) ∧
    ((ProcSim.Fermentation.run ⟨"Ferm", 24, [], 0, 2⟩ ⟨"B1", 500, 0, 0, []⟩ ⟨[], [], 0⟩
        0).failed = false ∧
     (ProcSim.Fermentation.run ⟨"Ferm", 24, [], 0, 2⟩ ⟨"B1", 500, 0, 0, []⟩ ⟨[], [], 0⟩
        0).batch.volume_liters = 500 ∧
     (ProcSim.Fermentation.run ⟨"Ferm", 24, [], 0, 2⟩ ⟨"B1", 500, 0, 0, []⟩ ⟨[], [], 0⟩
        0).batch.product_mass_grams = (0 : ℚ) + 500 * 2) :=
  ⟨rfl, by decide,
    C9_zero_risk_safe ⟨"Ferm", 24, [], 0, 2⟩ ⟨"B1", 500, 0, 0, []⟩ ⟨[], [], 0⟩ 0
      rfl (by decide)⟩

/-- C5 counterexample: the source draws from the unseeded global random
stream (`random.random()`), so two successive simulation runs in the same
process — same configuration, same initial process-level stream — consume
successive positions of that one stream and can reach different outcomes: with
risk 7/10 and stream [1/2, 9/10], the first run is contaminated and the second
is not, refuting "identical event traces, including the same contamination
decisions". -/
theorem C5_global_stream_counterexample :
    (ProcSim.Fermentation.runStream ⟨"Ferm", 24, [], 7 / 10, 2⟩ ⟨"B1", 500, 0, 0, []⟩
        ⟨[], [], 0⟩ [1 / 2, 9 / 10]).1.failed = true ∧
    (ProcSim.Fermentation.runStream ⟨"Ferm", 24, [], 7 / 10, 2⟩ ⟨"B1", 500, 0, 0, []⟩
        ⟨[], [], 0⟩
        (ProcSim.Fermentation.runStream ⟨"Ferm", 24, [], 7 / 10, 2⟩ ⟨"B1", 500, 0, 0, []⟩
          ⟨[], [], 0⟩ [1 / 2, 9 / 10]).2).1.failed = false :=
  ⟨by with_unfolding_all rfl, by with_unfolding_all rfl⟩

/-- C5 (amended). Determinism per draw: a run's outcome is a function of the
configuration and the random draw the run consumes — two runs that consume
equal draws produce identical results. The source's stream is global and
unseeded, so equal draws for successive runs are not guaranteed by any seed. -/
theorem C5_determinism_per_draw (cfg : ProcSim.FermentationConfig) (b : ProcSim.Batch)
    (m : ProcSim.MaterialsManager) (rs rs' : List ℚ)
    (h : rs.headD 0 = rs'.headD 0) :
    (ProcSim.Fermentation.runStream cfg b m rs).1
      = (ProcSim.Fermentation.runStream cfg b m rs').1 := by
  simp only [ProcSim.Fermentation.runStream]
  rw [h]

/-- Witness for C5 (amended): two streams with the same head but different
tails give the same run outcome. -/
theorem C5_determinism_per_draw_witness :
    (ProcSim.Fermentation.runStream ⟨"Ferm", 24, [], 7 / 10, 2⟩ ⟨"B1", 500, 0, 0, []⟩
        ⟨[], [], 0⟩ [1 / 2]).1
      = (ProcSim.Fermentation.runStream ⟨"Ferm", 24, [], 7 / 10, 2⟩ ⟨"B1", 500, 0, 0, []⟩
        ⟨[], [], 0⟩ [1 / 2, 9 / 10]).1 :=
  C5_determinism_per_draw ⟨"Ferm", 24, [], 7 / 10, 2⟩ ⟨"B1", 500, 0, 0, []⟩ ⟨[], [], 0⟩
    [1 / 2] [1 / 2, 9 / 10] rfl

/-- C6 counterexample: filling a 100 L tank (step `dt = 1`) from level 0 to
target 5 at rate 2 terminates at level 6: the step amount is
`min(rate*dt, capacity - level)` — capped by the gap to the CAPACITY, not by
the gap to the target — so the fill overshoots the target instead of
terminating exactly at it. -/
theorem C6_fill_overshoot_counterexample :
    (ProcSim.SimTank.fill_to_level ⟨1, 100, 0, ProcSim.TankStatus.Idle⟩ 5 2 20).map
        (fun p => p.2.level) = some 6 ∧ (6 : ℚ) ≠ 5 :=
  ⟨by with_unfolding_all rfl, by decide⟩

/-- C6 (amended). Fill/empty step law as implemented: each fill step suspends
for `dt` and moves `min(rate*dt, capacity - level)` — the gap to the tank
capacity — so a completed fill ends at or above the target (it may overshoot
the target) and never above the capacity; each empty step moves
`min(rate*dt, level - target)` so a completed empty from a level at or above
the target terminates exactly at the target. The status is Filling/Emptying
in every state observable during the operation and Idle afterwards. -/
theorem C6_fill_empty_step_law (t : ProcSim.SimTank) (target_level rate : ℚ) (fuel : ℕ) :
    (∀ tr tf, t.level ≤ t.capacity →
        t.fill_to_level target_level rate fuel = some (tr, tf) →
        target_level ≤ tf.level ∧ tf.level ≤ t.capacity ∧
        tf.status = ProcSim.TankStatus.Idle ∧
        ∀ u ∈ tr, u.status = ProcSim.TankStatus.Filling) ∧
    (∀ tr tf, target_level ≤ t.level →
        t.empty_to_level target_level rate fuel = some (tr, tf) →
        tf.level = target_level ∧ tf.status = ProcSim.TankStatus.Idle ∧
        ∀ u ∈ tr, u.status = ProcSim.TankStatus.Emptying) := by
  constructor
  · intro tr tf hlc h
    simp only [ProcSim.SimTank.fill_to_level] at h
    cases hrec : ProcSim.fillLoop target_level rate
        { t with status := ProcSim.TankStatus.Filling } fuel with
    | none =>
        rw [hrec] at h
        exact Option.noConfusion h
    | some p =>
        obtain ⟨tr1, tf1⟩ := p
        rw [hrec] at h
        simp only [Option.some.injEq, Prod.mk.injEq] at h
        obtain ⟨h1, h2⟩ := h
        subst h1
        subst h2
        obtain ⟨ha, hb, hs, hcap, htr⟩ := ProcSim.fillLoop_spec _ _ _ _ _ _ hrec
        refine ⟨ha, hcap hlc, rfl, ?_⟩
        · intro u hu
          rcases List.mem_cons.mp hu with hu | hu
          · subst hu; rfl
          · exact htr u hu
  · intro tr tf hge h
    simp only [ProcSim.SimTank.empty_to_level] at h
    cases hrec : ProcSim.emptyLoop target_level rate
        { t with status := ProcSim.TankStatus.Emptying } fuel with
    | none =>
        rw [hrec] at h
        exact Option.noConfusion h
    | some p =>
        obtain ⟨tr1, tf1⟩ := p
        rw [hrec] at h
        simp only [Option.some.injEq, Prod.mk.injEq] at h
        obtain ⟨h1, h2⟩ := h
        subst h1
        subst h2
        obtain ⟨ha, hb, hs, hlow, htr⟩ := ProcSim.emptyLoop_spec _ _ _ _ _ _ hrec
        refine ⟨le_antisymm ha (hlow hge), rfl, ?_⟩
        intro u hu
        rcases List.mem_cons.mp hu with hu | hu
        · subst hu; rfl
        · exact htr u hu

/-- Witness for C6 (amended): emptying a tank from level 10 to target 4 at
rate 3 with `dt = 1` terminates exactly at level 4, every observable state
shows Emptying, and the final status is Idle. -/
theorem C6_fill_empty_step_law_witness :
    ((4 : ℚ) ≤ 10) ∧
    ((⟨1, 100, 4, ProcSim.TankStatus.Idle⟩ : ProcSim.SimTank).level = 4 ∧
     (⟨1, 100, 4, ProcSim.TankStatus.Idle⟩ : ProcSim.SimTank).status
        = ProcSim.TankStatus.Idle ∧
     ∀ u ∈ [(⟨1, 100, 10, ProcSim.TankStatus.Emptying⟩ : ProcSim.SimTank),
            ⟨1, 100, 7, ProcSim.TankStatus.Emptying⟩,
            ⟨1, 100, 4, ProcSim.TankStatus.Emptying⟩],
        u.status = ProcSim.TankStatus.Emptying) :=
  ⟨by decide,
    (C6_fill_empty_step_law ⟨1, 100, 10, ProcSim.TankStatus.Idle⟩ 4 3 20).2
      [⟨1, 100, 10, ProcSim.TankStatus.Emptying⟩,
       ⟨1, 100, 7, ProcSim.TankStatus.Emptying⟩,
       ⟨1, 100, 4, ProcSim.TankStatus.Emptying⟩]
      ⟨1, 100, 4, ProcSim.TankStatus.Idle⟩
      (by decide) (by with_unfolding_all rfl)⟩

/-- C8 counterexample: `MaterialsManager` is a `__new__`-based language-level
singleton, so two independently constructed `SimulationEngine`s in one process
receive the SAME ledger reference, and a write through the first run's ledger
is read back through the second run's ledger — the accumulators alias,
refuting "distinct ledger objects whose accumulators do not alias". -/
theorem C8_singleton_counterexample :
    ((ProcSim.SimulationEngine.init
        (ProcSim.SimulationEngine.init ⟨fun _ => none, 0, none⟩).2).1
      = (ProcSim.SimulationEngine.init ⟨fun _ => none, 0, none⟩).1) ∧
    (ProcSim.lookupMass
        (((ProcSim.heapSet
            (ProcSim.SimulationEngine.init
              (ProcSim.SimulationEngine.init ⟨fun _ => none, 0, none⟩).2).2
            (ProcSim.SimulationEngine.init ⟨fun _ => none, 0, none⟩).1
            (ProcSim.MaterialsManager.consume ProcSim.MaterialsManager.resetState
              "Glucose" 5)).store
          (ProcSim.SimulationEngine.init
            (ProcSim.SimulationEngine.init ⟨fun _ => none, 0, none⟩).2).1).getD
          ProcSim.MaterialsManager.resetState).inventory "Glucose" = 5) :=
  ⟨rfl, rfl⟩

/-- C8 (amended). The materials ledger is a single shared instance per
process, reset at each run start: every `SimulationEngine` construction
returns a ledger reference pointing at a freshly reset state (empty inventory,
empty waste, zero product), and because `MaterialsManager` is a language-level
singleton, a second independently constructed engine receives the very same
ledger reference as the first — the two runs alias one ledger object. -/
theorem C8_ledger_singleton (h : ProcSim.MMHeap) :
    (ProcSim.SimulationEngine.init (ProcSim.SimulationEngine.init h).2).1
      = (ProcSim.SimulationEngine.init h).1 ∧
    (ProcSim.SimulationEngine.init h).2.store (ProcSim.SimulationEngine.init h).1
      = some ProcSim.MaterialsManager.resetState := by
  cases hinst : h.instanceRef with
  | none =>
      simp [ProcSim.SimulationEngine.init, ProcSim.mmConstruct, ProcSim.heapSet, hinst]
  | some r =>
      simp [ProcSim.SimulationEngine.init, ProcSim.mmConstruct, ProcSim.heapSet, hinst]
